import Mathlib

/-!
Shallow embedding of `commandoro/commandoro.py` (package-based shell command
runner) and proofs about its package runner, executor, loader, selector and
session controller.

Conventions of the embedding:
- A JSON value is the inductive `JValue`; configuration files hold a mapping
  from package names to lists of `JValue` commands, modelled as an ordered
  association list (Python dicts preserve insertion order).
- The operating system is an oracle `sys : String → Int` giving the value
  `os.system` returns for each command string.
- Side effects on the OS are made observable: the executor also reports the
  list of shell invocations it performed, and the runner reports the list of
  commands it passed to the executor, in order.
-/

/-- A JSON value, as produced by Python `json.load`
(numbers restricted to integers). -/
inductive JValue : Type
  | jnull
  | jbool (b : Bool)
  | jnum (n : Int)
  | jstr (s : String)
  | jarr (xs : List JValue)
  | jobj (kvs : List (String × JValue))
  deriving Repr

mutual

/-- Model of Python repr of a JSON-decoded value (`None`, `True`, quoted
strings, bracketed lists, braced dicts). -/
def pyRepr : JValue → String
  | .jnull => "None"
  | .jbool b => if b then "True" else "False"
  | .jnum n => toString n
  | .jstr s => "\x27" ++ s ++ "\x27"
  | .jarr xs => "[" ++ pyReprList xs ++ "]"
  | .jobj kvs => "\x7b" ++ pyReprObj kvs ++ "\x7d"

/-- Comma-separated reprs of the elements of a Python list. -/
def pyReprList : List JValue → String
  | [] => ""
  | [x] => pyRepr x
  | x :: y :: xs => pyRepr x ++ ", " ++ pyReprList (y :: xs)

/-- Comma-separated `key: value` reprs of the items of a Python dict. -/
def pyReprObj : List (String × JValue) → String
  | [] => ""
  | [(k, v)] => "\x27" ++ k ++ "\x27: " ++ pyRepr v
  | (k, v) :: p :: kvs =>
      "\x27" ++ k ++ "\x27: " ++ pyRepr v ++ ", " ++ pyReprObj (p :: kvs)

end

/-- Model of Python `str()` as used by f-string interpolation: a string
renders as itself, any other value renders via its repr. -/
def pyStr : JValue → String
  | .jstr s => s
  | v => pyRepr v

/-- The class `Pack`: a named ordered list of commands
(`commandoro.py` lines 39-46). -/
structure Pack where
  name : String
  command_list : List JValue
  deriving Repr

/-- The `count` property: `len(self.command_list)`. -/
def Pack.count (p : Pack) : Nat :=
  p.command_list.length

/-- Outcome of one `executor` call: the boolean the function returns, plus
the list of shell invocations (`os.system` calls) it performed, recorded so
that external effects are observable in the embedding. -/
structure ExecResult where
  ok : Bool
  calls : List String
  deriving Repr, DecidableEq

/-- The function `executor(command, test)` (`commandoro.py` lines 49-62):
if not in test mode and the command is a string, run it through `os.system`
and return `False` exactly when the status is truthy (non-zero); in every
other case return `True`.  `sys` is the OS oracle. -/
def executor (sys : String → Int) (command : JValue) (test : Bool) : ExecResult :=
  if !test then
    match command with
    | .jstr s =>
        let status := sys s
        if status ≠ 0 then ⟨false, [s]⟩ else ⟨true, [s]⟩
    | _ => ⟨true, []⟩
  else ⟨true, []⟩

/-- A configuration: ordered mapping from package name to command list. -/
abbrev Config := List (String × List JValue)

/-- The possible contents found at a path handed to `open_file`: no file,
a file whose body is not valid JSON, or a well-formed configuration. -/
inductive FileContent : Type
  | missing
  | malformed
  | wellFormed (cfg : Config)
  deriving Repr

/-- The loader `open_file(file)` (`commandoro.py` lines 65-79): `json.load` the file;
`FileNotFoundError` and `json.decoder.JSONDecodeError` are caught and give
`{}`; otherwise the parsed data is returned as is. -/
def open_file : FileContent → Config
  | .missing => []
  | .malformed => []
  | .wellFormed cfg => cfg

/-- Accumulated observable state of one `start` run: the final value of
`count`, the `errors` list in order, every shell invocation made, and every
command handed to `executor`, in order. -/
structure RunReport where
  count : Nat
  errors : List String
  shellCalls : List String
  executed : List JValue
  deriving Repr

/-- The `for command in pack_obj.command_list` loop of `start`
(`commandoro.py` lines 150-161), carrying the running `count`:
each iteration increments `count`, builds `msg = [execute count]: command`,
calls `executor`, and on failure appends `Error: msg` to `errors`. -/
def startLoop (sys : String → Int) (test : Bool) : Nat → List JValue → RunReport
  | count, [] => ⟨count, [], [], []⟩
  | count, c :: rest =>
      let newCount := count + 1
      let msg := "[execute " ++ toString newCount ++ "]: " ++ pyStr c
      let r := executor sys c test
      let tail := startLoop sys test newCount rest
      ⟨tail.count,
       if r.ok then tail.errors else ("Error: " ++ msg) :: tail.errors,
       r.calls ++ tail.shellCalls,
       c :: tail.executed⟩

/-- The runner `start(pack_obj, test)` (`commandoro.py` lines 144-164): run
the loop with `count = 0`, `errors = []`. -/
def start (sys : String → Int) (pack_obj : Pack) (test : Bool) : RunReport :=
  startLoop sys test 0 pack_obj.command_list

/-- The summary `start` prints after the loop (`commandoro.py` lines
163-164): pack name, `count - len(errors)` completed, `len(errors)` errors. -/
structure Summary where
  packName : String
  completedShown : Nat
  errorsShown : Nat
  deriving Repr, DecidableEq

/-- The summary line of `start`: name, `count - len(errors)`, `len(errors)`. -/
def startSummary (sys : String → Int) (pack_obj : Pack) (test : Bool) : Summary :=
  let r := start sys pack_obj test
  ⟨pack_obj.name, r.count - r.errors.length, r.errors.length⟩

/-- Python `enumerate(xs, k)`: pair each element with its index from `k`
(indices as Python ints). -/
def enumFromInt {α : Type} (k : Int) : List α → List (Int × α)
  | [] => []
  | x :: xs => (k, x) :: enumFromInt (k + 1) xs

/-- The numbered menu mapping built by `get_pack_name` from the keys of
`pack_objects` with `enumerate(.., 1)` (`commandoro.py` line 107). -/
def num_pack (pack_objects : List (String × Pack)) : List (Int × String) :=
  enumFromInt 1 (pack_objects.map Prod.fst)

/-- The package-menu lines printed by `get_pack_name` (`commandoro.py`
lines 111-112): one line `n. name | Commands[count]` per `num_pack` item,
the count looked up by name in `pack_objects` (that dict access always
succeeds since menu names come from the keys of `pack_objects`; the
`getD 0` default is unreachable). -/
def menuLines (pack_objects : List (String × Pack)) : List String :=
  (num_pack pack_objects).map fun ns =>
    toString ns.1 ++ ". " ++ ns.2 ++ " | Commands[" ++
      toString (((pack_objects.lookup ns.2).map Pack.count).getD 0) ++ "]"

/-- Outcome of one pass of the outer `while 1` loop of `get_pack_name` on a
numeric input, up to entering the inner package menu: an uncaught `KeyError`
(the exception propagates and the process dies), the `Input Error!` branch
that re-prompts, or reaching the package menu with the selected name. -/
inductive SelOutcome : Type
  | keyError
  | inputErrorRetry
  | menu (pack_name : String)
  deriving Repr, DecidableEq

/-- The body of the outer loop of `get_pack_name` (`commandoro.py` lines
114-120) on numeric input `num`, in source order: `pack_name =
num_pack[num]` (dict access: `KeyError` when absent), then
`pack_objects[pack_name].command_list`, then the `if num not in num_pack`
re-prompt check, else proceed to the package menu. -/
def selectionStep (pack_objects : List (String × Pack)) (num : Int) : SelOutcome :=
  let np := num_pack pack_objects
  match np.lookup num with
  | none => .keyError
  | some pack_name =>
      match pack_objects.lookup pack_name with
      | none => .keyError
      | some _ =>
          if !(np.map Prod.fst).contains num then .inputErrorRetry
          else .menu pack_name

/-- The packs passed to `start` by `cli` (`commandoro.py` lines 227-231),
given the loaded `pack_dict` and the chosen `pack_name`: the primary pack,
then the `default` pack exactly when the `--default` flag is set, the key
`default` exists, and the chosen name is not itself `default`.  The dict
accesses `pack_dict[pack_name]` and `pack_dict[default]` are modelled with
`getD []`; the defaults are unreachable because `cli` only reaches them with
the keys present (hypotheses of the theorems below). -/
def cliRunPacks (pack_dict : Config) (defaultFlag : Bool) (pack_name : String) :
    List Pack :=
  let primary : Pack := ⟨pack_name, (pack_dict.lookup pack_name).getD []⟩
  if defaultFlag && (pack_dict.lookup "default").isSome && !(pack_name == "default")
  then [primary, ⟨"default", (pack_dict.lookup "default").getD []⟩]
  else [primary]

/-- The full sequence of commands handed to the executor over one `cli`
invocation, in execution order: each pack runs to completion before the
next begins. -/
def cliTrace (sys : String → Int) (pack_dict : Config) (defaultFlag : Bool)
    (pack_name : String) (test : Bool) : List JValue :=
  ((cliRunPacks pack_dict defaultFlag pack_name).map fun p =>
    (start sys p test).executed).flatten

/-! ### Helper lemmas about the runner loop -/

theorem executor_dry (sys : String → Int) (c : JValue) :
    executor sys c true = ⟨true, []⟩ := rfl

theorem startLoop_executed (sys : String → Int) (t : Bool) :
    ∀ (k : Nat) (l : List JValue), (startLoop sys t k l).executed = l := by
  intro k l
  induction l generalizing k with
  | nil => rfl
  | cons c rest ih => simp [startLoop, ih]

theorem startLoop_count (sys : String → Int) (t : Bool) :
    ∀ (k : Nat) (l : List JValue), (startLoop sys t k l).count = k + l.length := by
  intro k l
  induction l generalizing k with
  | nil => simp [startLoop]
  | cons c rest ih =>
      simp [startLoop, ih]
      omega

theorem errorMsg_assoc (n : Nat) (c : JValue) :
    "Error: " ++ ("[execute " ++ toString n ++ "]: " ++ pyStr c) =
    "Error: [execute " ++ toString n ++ "]: " ++ pyStr c := by
  have h : "Error: " ++ "[execute " = "Error: [execute " := by decide
  simp only [String.append_assoc]
  rw [← h, String.append_assoc]

theorem startLoop_errors (sys : String → Int) (t : Bool) :
    ∀ (k : Nat) (l : List JValue), (startLoop sys t k l).errors =
      ((List.enumFrom (k + 1) l).filter fun nc => !(executor sys nc.2 t).ok).map
        fun nc => "Error: [execute " ++ toString nc.1 ++ "]: " ++ pyStr nc.2 := by
  intro k l
  induction l generalizing k with
  | nil => rfl
  | cons c rest ih =>
      by_cases h : (executor sys c t).ok
      · simp [startLoop, List.enumFrom, List.filter_cons, h, ih (k + 1)]
      · simp only [Bool.not_eq_true] at h
        simp [startLoop, List.enumFrom, List.filter_cons, h, ih (k + 1),
          errorMsg_assoc]

theorem startLoop_errors_length (sys : String → Int) (t : Bool) :
    ∀ (k : Nat) (l : List JValue), (startLoop sys t k l).errors.length =
      (l.filter fun c => !(executor sys c t).ok).length := by
  intro k l
  induction l generalizing k with
  | nil => rfl
  | cons c rest ih =>
      by_cases h : (executor sys c t).ok
      · simp [startLoop, List.filter_cons, h, ih (k + 1)]
      · simp only [Bool.not_eq_true] at h
        simp [startLoop, List.filter_cons, h, ih (k + 1)]

theorem startLoop_shellCalls_dry (sys : String → Int) :
    ∀ (k : Nat) (l : List JValue), (startLoop sys true k l).shellCalls = [] := by
  intro k l
  induction l generalizing k with
  | nil => rfl
  | cons c rest ih => simp [startLoop, executor_dry, ih]

theorem start_dry_errors (sys : String → Int) (p : Pack) :
    (start sys p true).errors = [] := by
  rw [start, startLoop_errors]
  simp [executor_dry]

/-! ### Claim theorems: executor, loader and runner -/

/-- C1: for every OS oracle, package and dry-run flag, `start` hands the
executor exactly the stored command sequence: one invocation per command,
in exactly the stored order, and no command is skipped after an earlier
failure. -/
theorem claim_C1_runner_visits_every_command (sys : String → Int) (p : Pack)
    (test : Bool) : (start sys p test).executed = p.command_list :=
  startLoop_executed sys test 0 p.command_list

/-- C4: after the runner loop, total attempted equals the pack count; the
summary reports `count - len(errors)` successes and `len(errors)` errors,
where the number of errors equals the number of commands whose executor
call failed; and each failure contributes exactly one message
`Error: [execute N]: command` with `N` the 1-based position. -/
theorem claim_C4_summary_and_error_messages (sys : String → Int) (p : Pack)
    (test : Bool) :
    (start sys p test).count = p.count ∧
    (start sys p test).errors =
      ((List.enumFrom 1 p.command_list).filter
          fun nc => !(executor sys nc.2 test).ok).map
        (fun nc => "Error: [execute " ++ toString nc.1 ++ "]: " ++ pyStr nc.2) ∧
    startSummary sys p test =
      ⟨p.name,
       p.count - (p.command_list.filter fun c => !(executor sys c test).ok).length,
       (p.command_list.filter fun c => !(executor sys c test).ok).length⟩ := by
  refine ⟨?_, ?_, ?_⟩
  · rw [start, startLoop_count]
    simp [Pack.count]
  · rw [start, startLoop_errors]
  · simp [startSummary, start, startLoop_count, startLoop_errors_length, Pack.count]

/-- C5: with the dry-run flag set the executor always returns success and
performs no shell invocation, and a dry run of any non-empty pack makes no
shell call, reports no errors, attempts every command, and summarises
`count` completed with `0` errors. -/
theorem claim_C5_dry_run (sys : String → Int) (c : JValue) (p : Pack)
    (h : p.command_list ≠ []) :
    executor sys c true = ⟨true, []⟩ ∧
    (start sys p true).shellCalls = [] ∧
    (start sys p true).errors = [] ∧
    (start sys p true).count = p.count ∧
    startSummary sys p true = ⟨p.name, p.count, 0⟩ := by
  refine ⟨executor_dry sys c, startLoop_shellCalls_dry sys 0 _, start_dry_errors sys p,
    ?_, ?_⟩
  · rw [start, startLoop_count]
    simp [Pack.count]
  · have he := start_dry_errors sys p
    rw [start] at he
    simp [startSummary, start, startLoop_count, Pack.count, he]

theorem claim_C5_dry_run_witness :
    (Pack.mk "w" [JValue.jstr "boom"]).command_list ≠ [] ∧
    (executor (fun _ => 1) (JValue.jstr "boom") true = ⟨true, []⟩ ∧
     (start (fun _ => 1) (Pack.mk "w" [JValue.jstr "boom"]) true).shellCalls = [] ∧
     (start (fun _ => 1) (Pack.mk "w" [JValue.jstr "boom"]) true).errors = [] ∧
     (start (fun _ => 1) (Pack.mk "w" [JValue.jstr "boom"]) true).count =
       (Pack.mk "w" [JValue.jstr "boom"]).count ∧
     startSummary (fun _ => 1) (Pack.mk "w" [JValue.jstr "boom"]) true =
       ⟨"w", (Pack.mk "w" [JValue.jstr "boom"]).count, 0⟩) :=
  ⟨by simp,
   claim_C5_dry_run (fun _ => 1) (JValue.jstr "boom")
     (Pack.mk "w" [JValue.jstr "boom"]) (by simp)⟩

/-- C6: in live mode a string command is handed to the OS shell exactly once
(no retries), and the call reports failure precisely when the exit status
is non-zero (truthy). -/
theorem claim_C6_live_string_shell (sys : String → Int) (s : String) :
    (executor sys (.jstr s) false).calls = [s] ∧
    ((executor sys (.jstr s) false).ok = false ↔ sys s ≠ 0) := by
  constructor
  · by_cases h : sys s = 0 <;> simp [executor, h]
  · by_cases h : sys s = 0 <;> simp [executor, h]

/-- C7: the loader never raises: a missing file and a malformed JSON body
both give the empty configuration, and a well-formed file gives back
exactly the configuration serialized in it (so every command array keeps
its stored order). -/
theorem claim_C7_loader_never_raises (cfg : Config) :
    open_file .missing = [] ∧ open_file .malformed = [] ∧
    open_file (.wellFormed cfg) = cfg :=
  ⟨rfl, rfl, rfl⟩

/-- C8: an empty pack performs zero executor invocations, zero shell calls,
collects no errors, and its summary reports 0 completed and 0 errors, for
both values of the dry-run flag. -/
theorem claim_C8_empty_pack (sys : String → Int) (name : String) (test : Bool) :
    start sys ⟨name, []⟩ test = ⟨0, [], [], []⟩ ∧
    startSummary sys ⟨name, []⟩ test = ⟨name, 0, 0⟩ :=
  ⟨rfl, rfl⟩

/-- C10: in live mode the type guard makes every non-string command silently
succeed: the executor returns success and performs no shell invocation at
all. -/
theorem claim_C10_nonstring_silent_success (sys : String → Int) (v : JValue)
    (h : ∀ s, v ≠ .jstr s) :
    executor sys v false = ⟨true, []⟩ := by
  cases v with
  | jnull => rfl
  | jbool b => rfl
  | jnum n => rfl
  | jstr s => exact absurd rfl (h s)
  | jarr xs => rfl
  | jobj kvs => rfl

theorem claim_C10_nonstring_silent_success_witness :
    (∀ s, JValue.jnum 3 ≠ JValue.jstr s) ∧
    executor (fun _ => 1) (JValue.jnum 3) false = ⟨true, []⟩ :=
  ⟨fun _ h => JValue.noConfusion h,
   claim_C10_nonstring_silent_success (fun _ => 1) (JValue.jnum 3)
     (fun _ h => JValue.noConfusion h)⟩

/-! ### Helper lemmas about enumeration and lookup -/

theorem start_executed (sys : String → Int) (p : Pack) (test : Bool) :
    (start sys p test).executed = p.command_list :=
  startLoop_executed sys test 0 p.command_list

theorem enumFromInt_length {α : Type} :
    ∀ (l : List α) (k : Int), (enumFromInt k l).length = l.length := by
  intro l
  induction l with
  | nil =>
      intro k
      rfl
  | cons x xs ih =>
      intro k
      simp [enumFromInt, ih (k + 1)]

theorem enumFromInt_lookup_none {α : Type} :
    ∀ (l : List α) (k num : Int), (num < k ∨ k + l.length ≤ num) →
      (enumFromInt k l).lookup num = none := by
  intro l
  induction l with
  | nil =>
      intro k num h
      rfl
  | cons x xs ih =>
      intro k num h
      simp only [List.length_cons] at h
      have hne : (num == k) = false := by
        simp only [beq_eq_false_iff_ne, ne_eq]
        push_cast at h
        omega
      simp only [enumFromInt, List.lookup, hne]
      apply ih (k + 1) num
      push_cast at h ⊢
      omega

theorem lookup_eq_of_nodup_mem :
    ∀ (l : List (String × Pack)) (p : String × Pack),
      (l.map Prod.fst).Nodup → p ∈ l → l.lookup p.1 = some p.2 := by
  intro l
  induction l with
  | nil =>
      intro p _ hp
      cases hp
  | cons q rest ih =>
      intro p hnd hp
      simp only [List.map_cons, List.nodup_cons] at hnd
      rcases List.mem_cons.mp hp with hp | hp
      · subst hp
        simp [List.lookup]
      · have hne : (p.1 == q.1) = false := by
          simp only [beq_eq_false_iff_ne, ne_eq]
          intro hcontra
          exact hnd.1 (hcontra ▸ List.mem_map_of_mem Prod.fst hp)
        simp only [List.lookup, hne]
        exact ih p hnd.2 hp

theorem menuLines_general :
    ∀ (po : List (String × Pack)) (all : List (String × Pack)) (k : Int),
      (∀ p ∈ po, all.lookup p.1 = some p.2) →
      (enumFromInt k (po.map Prod.fst)).map (fun ns =>
        toString ns.1 ++ ". " ++ ns.2 ++ " | Commands[" ++
          toString (((all.lookup ns.2).map Pack.count).getD 0) ++ "]") =
      (enumFromInt k po).map (fun np =>
        toString np.1 ++ ". " ++ np.2.1 ++ " | Commands[" ++
          toString np.2.2.command_list.length ++ "]") := by
  intro po
  induction po with
  | nil =>
      intro all k h
      rfl
  | cons p rest ih =>
      intro all k h
      have hp := h p (List.mem_cons_self p rest)
      simp only [List.map_cons, enumFromInt, List.map, hp, Option.map_some,
        Option.getD_some, Pack.count]
      exact congrArg _ (ih all (k + 1) fun q hq => h q (List.mem_cons_of_mem p hq))

/-! ### Claim theorems: selector and session controller -/

/-- C2 (refuting the re-prompt claim): for every configuration and every
numeric input outside the displayed range 1..N, the outer loop of
`get_pack_name` hits the dict access `num_pack[num]` before the
`num not in num_pack` guard, so the pass ends in an uncaught `KeyError`
that propagates (the guard branch is unreachable), not in a re-prompt. -/
theorem claim_C2_out_of_range_raises_keyerror
    (pack_objects : List (String × Pack)) (num : Int)
    (h : num < 1 ∨ (pack_objects.length : Int) < num) :
    selectionStep pack_objects num = .keyError := by
  have hl : (num_pack pack_objects).lookup num = none := by
    apply enumFromInt_lookup_none
    simp only [List.length_map]
    omega
  simp [selectionStep, hl]

theorem claim_C2_out_of_range_raises_keyerror_witness :
    ((2 : Int) < 1 ∨
      (([("default", Pack.mk "default" [])] : List (String × Pack)).length : Int) < 2) ∧
    selectionStep [("default", Pack.mk "default" [])] 2 = .keyError :=
  ⟨Or.inr (by decide),
   claim_C2_out_of_range_raises_keyerror _ 2 (Or.inr (by decide))⟩

/-- C9: for a configuration whose keys are distinct (dict semantics), the
package menu has exactly one line per package, indexed 1..N from the first
entry in insertion order, each line showing the package name and its
command count, which is the length of its command list. -/
theorem claim_C9_menu_enumeration (pack_objects : List (String × Pack))
    (h : (pack_objects.map Prod.fst).Nodup) :
    (menuLines pack_objects).length = pack_objects.length ∧
    menuLines pack_objects =
      (enumFromInt 1 pack_objects).map (fun np =>
        toString np.1 ++ ". " ++ np.2.1 ++ " | Commands[" ++
          toString np.2.2.command_list.length ++ "]") := by
  have hmain : menuLines pack_objects =
      (enumFromInt 1 pack_objects).map (fun np =>
        toString np.1 ++ ". " ++ np.2.1 ++ " | Commands[" ++
          toString np.2.2.command_list.length ++ "]") := by
    rw [menuLines, num_pack]
    exact menuLines_general pack_objects pack_objects 1
      (fun p hp => lookup_eq_of_nodup_mem pack_objects p h hp)
  refine ⟨?_, hmain⟩
  rw [hmain, List.length_map, enumFromInt_length]

theorem claim_C9_menu_enumeration_witness :
    (([("a", Pack.mk "a" [JValue.jstr "x"]), ("b", Pack.mk "b" [])] :
        List (String × Pack)).map Prod.fst).Nodup ∧
    ((menuLines [("a", Pack.mk "a" [JValue.jstr "x"]), ("b", Pack.mk "b" [])]).length =
       ([("a", Pack.mk "a" [JValue.jstr "x"]), ("b", Pack.mk "b" [])] :
         List (String × Pack)).length ∧
     menuLines [("a", Pack.mk "a" [JValue.jstr "x"]), ("b", Pack.mk "b" [])] =
       (enumFromInt 1
         ([("a", Pack.mk "a" [JValue.jstr "x"]), ("b", Pack.mk "b" [])] :
           List (String × Pack))).map
         (fun np => toString np.1 ++ ". " ++ np.2.1 ++ " | Commands[" ++
           toString np.2.2.command_list.length ++ "]")) :=
  ⟨by simp, claim_C9_menu_enumeration _ (by simp)⟩

/-- C3: the `default` pack is run as a second pass if and only if the chain
flag is set, the key `default` exists in the configuration, and the chosen
name is not itself `default`; and when it runs, the executed command trace
is the primary pack's commands followed, strictly afterwards, by the
`default` pack's commands (never interleaved). -/
theorem claim_C3_default_chaining (sys : String → Int) (pack_dict : Config)
    (defaultFlag : Bool) (pack_name : String) (test : Bool)
    (cmds : List JValue) (hP : pack_dict.lookup pack_name = some cmds) :
    ((cliRunPacks pack_dict defaultFlag pack_name).map Pack.name =
      if defaultFlag = true ∧ (pack_dict.lookup "default").isSome ∧
          pack_name ≠ "default"
      then [pack_name, "default"] else [pack_name]) ∧
    (∀ dcmds, pack_dict.lookup "default" = some dcmds →
      cliTrace sys pack_dict defaultFlag pack_name test =
        if defaultFlag = true ∧ pack_name ≠ "default"
        then cmds ++ dcmds else cmds) ∧
    (pack_dict.lookup "default" = none →
      cliTrace sys pack_dict defaultFlag pack_name test = cmds) := by
  refine ⟨?_, ?_, ?_⟩
  · by_cases h1 : defaultFlag <;>
      by_cases h2 : (pack_dict.lookup "default").isSome <;>
      by_cases h3 : pack_name = "default" <;>
      simp [cliRunPacks, h1, h2, h3]
  · intro dcmds hD
    by_cases h3 : pack_name = "default"
    · subst h3
      rw [hP] at hD
      cases hD
      simp [cliTrace, cliRunPacks, start_executed, hP]
    · by_cases h1 : defaultFlag <;>
        simp [cliTrace, cliRunPacks, start_executed, hP, hD, h1, h3]
  · intro hD
    by_cases h3 : pack_name = "default"
    · subst h3
      rw [hP] at hD
      cases hD
    · by_cases h1 : defaultFlag <;>
        simp [cliTrace, cliRunPacks, start_executed, hP, hD, h1, h3]

theorem claim_C3_default_chaining_witness :
    (([("A", [JValue.jstr "t"]), ("default", [JValue.jstr "d"])] :
        Config).lookup "A" = some [JValue.jstr "t"]) ∧
    cliTrace (fun _ => 0) [("A", [JValue.jstr "t"]), ("default", [JValue.jstr "d"])]
      true "A" false = [JValue.jstr "t"] ++ [JValue.jstr "d"] := by
  refine ⟨rfl, ?_⟩
  have h := (claim_C3_default_chaining (fun _ => 0)
    [("A", [JValue.jstr "t"]), ("default", [JValue.jstr "d"])] true "A" false
    [JValue.jstr "t"] rfl).2.1 [JValue.jstr "d"] rfl
  simpa using h
